import Mathlib

/-!
Verification of the bounded message store, transcript renderer and
command adapter of `duck_summarizer` (src/main.rs), shallowly embedded
in Lean.  Telegram identifier types (`ChatId`, `ThreadId`, `MessageId`)
are integers in the source and are modelled as `Int`; the `HashMap` of
buffers is modelled extensionally as a partial map
`ChatThreadId → Option (List SavedMessage)`; the `VecDeque` buffer is a
`List` with `pop_front = tail` and `push_back = append-singleton`.
-/

/-- Capacity constant: `const MAX_MESSAGES: usize = 1000;` (main.rs:21). -/
def MAX_MESSAGES : Nat := 1000

/-- `struct ChatThreadId { chat_id: ChatId, thread_id: Option<ThreadId> }`
(main.rs:55-59).  A conversation key: chat id plus optional thread id. -/
structure ChatThreadId where
  chat_id : Int
  thread_id : Option Int
deriving DecidableEq

/-- `struct SavedMessage` (main.rs:61-67): message id, optional author
display name, optional reply-target id and the text body. -/
structure SavedMessage where
  message_id : Int
  from_user : Option String
  reply_to_message_id : Option Int
  text : String
deriving DecidableEq

/-- `struct MessageStore` (main.rs:69-74): the map from conversation key
to buffer.  The `HashMap` is modelled extensionally; an absent key is
`none`.  The `startup_time` field only feeds the uptime report and is
not part of any claim, so it is not modelled. -/
structure MessageStore where
  chats : ChatThreadId → Option (List SavedMessage)

/-- `MessageStore::new` (main.rs:77-82): the empty map. -/
def MessageStore.new : MessageStore := ⟨fun _ => none⟩

/-- `MessageStore::add_message` (main.rs:84-96): look the key up
(creating an empty buffer when absent, as `entry().or_insert_with`
does), `pop_front` when `len >= MAX_MESSAGES`, then `push_back`. -/
def MessageStore.add_message (s : MessageStore) (chat_id : Int)
    (thread_id : Option Int) (message : SavedMessage) : MessageStore :=
  let key : ChatThreadId := ⟨chat_id, thread_id⟩
  let chat_messages := (s.chats key).getD []
  let evicted :=
    if MAX_MESSAGES ≤ chat_messages.length then chat_messages.tail
    else chat_messages
  ⟨fun k => if k = key then some (evicted ++ [message]) else s.chats k⟩

/-- `MessageStore::get_last_n_messages` (main.rs:98-113): on a known key
take the last `min n len` elements in order
(`iter().rev().take(count).rev()`), on an unknown key return `[]`. -/
def MessageStore.get_last_n_messages (s : MessageStore) (chat_id : Int)
    (thread_id : Option Int) (n : Nat) : List SavedMessage :=
  match s.chats ⟨chat_id, thread_id⟩ with
  | some messages =>
      let count := min n messages.length
      ((messages.reverse.take count).reverse)
  | none => []

/-- The spec's `count_for(key)`: current length of one buffer, 0 for an
unknown key.  In the source this is the `current_chat_messages`
computation of the `Memory` command arm (main.rs:337-341):
`chats.get(&key).map(|v| v.len()).unwrap_or(0)`. -/
def MessageStore.count_for (s : MessageStore) (chat_id : Int)
    (thread_id : Option Int) : Nat :=
  ((s.chats ⟨chat_id, thread_id⟩).map List.length).getD 0

/-- The contents of the buffer (`VecDeque`) held for one key, `[]` when
the key is absent: the list the spec's snapshot/count contracts are
phrased over. -/
def MessageStore.buffer (s : MessageStore) (chat_id : Int)
    (thread_id : Option Int) : List SavedMessage :=
  (s.chats ⟨chat_id, thread_id⟩).getD []

/-- Folding a sequence of `add_message` calls for one key over a store:
"for every sequence of append calls on one key". -/
def appendAll (s : MessageStore) (chat_id : Int) (thread_id : Option Int)
    (ms : List SavedMessage) : MessageStore :=
  ms.foldl (fun st m => st.add_message chat_id thread_id m) s

/-! ## Transcript renderer

The transcript-building loop of `summarize_conversation`
(main.rs:394-418): purely functional, no store or network access. -/

/-- One step of `text.replace('\n', "\\n")`: a newline becomes the two
characters backslash and `n`; every other character is kept. -/
def escapeChar (c : Char) : List Char :=
  if c = '\n' then ['\\', 'n'] else [c]

/-- `message.text.replace('\n', "\\n")` (main.rs:400): replace every
literal newline by the two-character escape. -/
def escapeNewlines (s : String) : String :=
  ⟨s.data.flatMap escapeChar⟩

/-- The line built for one message by the loop body (main.rs:396-418):
author label is `from_user.as_deref().unwrap_or("Unknown")`; when
`reply_to_message_id` is set the reply target is
`messages.iter().find(|m| m.message_id == reply_id)
  .and_then(|m| m.from_user.as_ref()).unwrap_or("someone")`. -/
def renderMessage (messages : List SavedMessage) (message : SavedMessage) : String :=
  let username := message.from_user.getD "Unknown"
  let text := escapeNewlines message.text
  match message.reply_to_message_id with
  | some reply_id =>
      let replied_to :=
        ((messages.find? (fun m => m.message_id == reply_id)).bind
          (fun m => m.from_user)).getD "someone"
      username ++ " (replying to " ++ replied_to ++ "): " ++ text ++ "\n"
  | none => username ++ ": " ++ text ++ "\n"

/-- `conversation_text` accumulation (main.rs:395-418): a `String`
built by `push_str` over the messages in order. -/
def conversation_text (messages : List SavedMessage) : String :=
  messages.foldl (fun acc m => acc ++ renderMessage messages m) ""

/-- Number of newline characters in a string; since every emitted line
is terminated by `"\n"`, this is the transcript's line count. -/
def countNewlines (s : String) : Nat := s.data.count '\n'

/-! ## Command adapter: the `/summarize` count parameter -/

/-- Rust `char::is_whitespace`: the Unicode `White_Space` code points. -/
def rustIsWhitespace (c : Char) : Bool :=
  c.toNat = 0x09 || c.toNat = 0x0A || c.toNat = 0x0B || c.toNat = 0x0C ||
  c.toNat = 0x0D || c.toNat = 0x20 || c.toNat = 0x85 || c.toNat = 0xA0 ||
  c.toNat = 0x1680 || (0x2000 ≤ c.toNat && c.toNat ≤ 0x200A) ||
  c.toNat = 0x2028 || c.toNat = 0x2029 || c.toNat = 0x202F ||
  c.toNat = 0x205F || c.toNat = 0x3000

/-- Leading and trailing characters satisfying `p` removed. -/
def trimChars (p : Char → Bool) (l : List Char) : List Char :=
  ((l.dropWhile p).reverse.dropWhile p).reverse

/-- Rust `str::trim`: remove leading and trailing whitespace. -/
def rustTrim (s : String) : String :=
  ⟨trimChars rustIsWhitespace s.data⟩

/-- Rust `usize::from_str`: an optional leading `+` sign followed by at
least one ASCII digit, rejecting anything else and values above
`usize::MAX` (64-bit). -/
def parseUsize (s : String) : Option Nat :=
  match s.data with
  | [] => none
  | c :: rest =>
      let digits := if c = '+' then rest else c :: rest
      if digits.isEmpty then none
      else if digits.all Char.isDigit then
        let v := digits.foldl (fun acc d => acc * 10 + (d.toNat - 48)) 0
        if v < 2 ^ 64 then some v else none
      else none

/-- The count validation of the `Command::Summarize` arm
(main.rs:279-295): trim the argument, default to 100 when empty,
otherwise accept a parsed `n` with `n > 0 && n <= MAX_MESSAGES`;
`none` is the rejection path that sends the guidance message and
returns without touching the store. -/
def parseCount (count_str : String) : Option Nat :=
  let trimmed := rustTrim count_str
  if trimmed = "" then some 100
  else
    match parseUsize trimmed with
    | some n => if 0 < n ∧ n ≤ MAX_MESSAGES then some n else none
    | none => none

/-! ## Command adapter: observable event trace of the Summarize arm

The Summarize arm (main.rs:276-329) is straight-line code; its
store-lock, store-read, outbound-send and external-call actions are
modelled as an ordered event trace.  The `tokio::sync::MutexGuard`
`store` obtained at main.rs:297 is a named binding, so Rust drops it at
the end of the enclosing block: on the early `return` of the empty
case (main.rs:303) and otherwise at the end of the match arm
(main.rs:329) — after `summarize_conversation(&messages).await` and
the message edit. -/

inductive AdapterEvent where
  | lockAcquire
  | storeRead
  | sendMessage (text : String)
  | externalSummarizeCall
  | editMessage
  | lockRelease
deriving DecidableEq

/-- The guidance message of the rejection path (main.rs:287-291). -/
def validationMessage : String :=
  "Please provide a valid number between 1 and " ++ toString MAX_MESSAGES

/-- Ordered trace of observable actions of the `Command::Summarize` arm
(main.rs:276-329) for a given raw argument and store state. -/
def summarizeEvents (count_str : String) (store : MessageStore)
    (chat_id : Int) (thread_id : Option Int) : List AdapterEvent :=
  match parseCount count_str with
  | none => [.sendMessage validationMessage]
  | some count =>
      let messages := store.get_last_n_messages chat_id thread_id count
      if messages.isEmpty then
        [.lockAcquire, .storeRead, .sendMessage "No messages to summarize.",
         .lockRelease]
      else
        [.lockAcquire, .storeRead,
         .sendMessage ("Summarizing " ++ toString messages.length ++ " messages..."),
         .externalSummarizeCall, .editMessage, .lockRelease]

/-- `true` iff the trace performs the external summarization call at a
point where the store lock has been acquired and not yet released. -/
def externalCallWhileLocked : Bool → List AdapterEvent → Bool
  | _, [] => false
  | _, .lockAcquire :: rest => externalCallWhileLocked true rest
  | _, .lockRelease :: rest => externalCallWhileLocked false rest
  | locked, .externalSummarizeCall :: rest =>
      locked || externalCallWhileLocked locked rest
  | locked, _ :: rest => externalCallWhileLocked locked rest

/-! ## Command adapter: inbound message handling -/

/-- The fields of a Telegram `User` used by `handle_message`
(main.rs:188-206): `first_name` is mandatory, `last_name` optional. -/
structure UserInfo where
  first_name : String
  last_name : Option String
deriving DecidableEq

/-- An inbound update as `handle_message` observes it (main.rs:183-226):
chat id, optional thread id, message id, the optional sender
(`msg.from`, a Lean keyword, hence `sender` here), the optional
reply-target id, and `msg.text()` — `none` for non-text content such
as media or stickers. -/
structure InboundMessage where
  chat_id : Int
  thread_id : Option Int
  message_id : Int
  sender : Option UserInfo
  reply_to_id : Option Int
  text : Option String
deriving DecidableEq

/-- `handle_message` (main.rs:183-226) as a store transformer: nothing
happens without a text body; a text message without a sender is
skipped (`return Ok(())`, main.rs:202-205); otherwise a `SavedMessage`
with the sender's display name (`first_name` or
`first_name ++ " " ++ last_name`, main.rs:188-194) is appended. -/
def handle_message (msg : InboundMessage) (store : MessageStore) : MessageStore :=
  match msg.text with
  | none => store
  | some text =>
      match msg.sender with
      | none => store
      | some user =>
          let display_name :=
            match user.last_name with
            | some last_name => user.first_name ++ " " ++ last_name
            | none => user.first_name
          store.add_message msg.chat_id msg.thread_id
            ⟨msg.message_id, some display_name, msg.reply_to_id, text⟩

/-- A store holding three messages in chat 1 (no thread), used to
instantiate theorems with hypotheses at concrete inputs. -/
def demoStore : MessageStore :=
  appendAll MessageStore.new 1 none
    [⟨1, some "A", none, "a"⟩, ⟨2, some "B", none, "b"⟩, ⟨3, some "C", none, "c"⟩]

/-! ## Store lemmas -/

/-- `get_last_n_messages` returns the last `n` elements of the buffer:
`iter().rev().take(count).rev()` is `drop (len - n)`. -/
theorem get_last_n_eq_drop (s : MessageStore) (chat_id : Int)
    (thread_id : Option Int) (n : Nat) :
    s.get_last_n_messages chat_id thread_id n =
      (s.buffer chat_id thread_id).drop ((s.buffer chat_id thread_id).length - n) := by
  unfold MessageStore.get_last_n_messages MessageStore.buffer
  cases h : s.chats ⟨chat_id, thread_id⟩ with
  | none => simp
  | some messages =>
      simp only [Option.getD_some]
      have htake : messages.reverse.take (min n messages.length)
          = messages.reverse.take n := by
        rcases Nat.le_total n messages.length with hle | hle
        · rw [Nat.min_eq_left hle]
        · rw [Nat.min_eq_right hle, List.take_of_length_le (by simp),
            List.take_of_length_le (by simpa using hle)]
      rw [htake, ← List.rtake_eq_reverse_take_reverse]
      rfl

theorem count_for_eq_buffer_length (s : MessageStore) (chat_id : Int)
    (thread_id : Option Int) :
    s.count_for chat_id thread_id = (s.buffer chat_id thread_id).length := by
  unfold MessageStore.count_for MessageStore.buffer
  cases h : s.chats ⟨chat_id, thread_id⟩ <;> simp

theorem add_message_buffer (s : MessageStore) (chat_id : Int)
    (thread_id : Option Int) (m : SavedMessage) :
    (s.add_message chat_id thread_id m).buffer chat_id thread_id =
      (if MAX_MESSAGES ≤ (s.buffer chat_id thread_id).length
        then (s.buffer chat_id thread_id).tail
        else s.buffer chat_id thread_id) ++ [m] := by
  unfold MessageStore.add_message MessageStore.buffer
  simp

theorem add_message_buffer_le (s : MessageStore) (chat_id : Int)
    (thread_id : Option Int) (m : SavedMessage)
    (h : (s.buffer chat_id thread_id).length ≤ MAX_MESSAGES) :
    ((s.add_message chat_id thread_id m).buffer chat_id thread_id).length
      ≤ MAX_MESSAGES := by
  rw [add_message_buffer]
  unfold MAX_MESSAGES at h ⊢
  split
  · rename_i hfull
    simp only [List.length_append, List.length_tail, List.length_cons,
      List.length_nil]
    omega
  · rename_i hroom
    simp only [List.length_append, List.length_cons, List.length_nil]
    omega

/-- Dropping down to the last `MAX_MESSAGES` elements ignores a head
element once at least `MAX_MESSAGES` elements follow it. -/
theorem drop_window_cons {α : Type} (a : α) (l : List α)
    (h : MAX_MESSAGES ≤ l.length) :
    (a :: l).drop ((a :: l).length - MAX_MESSAGES)
      = l.drop (l.length - MAX_MESSAGES) := by
  have hlen : (a :: l).length - MAX_MESSAGES = (l.length - MAX_MESSAGES) + 1 := by
    simp only [List.length_cons]
    omega
  rw [hlen, List.drop_succ_cons]

/-- Appending a sequence of messages to one key leaves the buffer equal
to the last `MAX_MESSAGES` elements of old-buffer-plus-appends. -/
theorem appendAll_buffer (chat_id : Int) (thread_id : Option Int) :
    ∀ (ms : List SavedMessage) (s : MessageStore),
      (s.buffer chat_id thread_id).length ≤ MAX_MESSAGES →
      (appendAll s chat_id thread_id ms).buffer chat_id thread_id =
        (s.buffer chat_id thread_id ++ ms).drop
          ((s.buffer chat_id thread_id ++ ms).length - MAX_MESSAGES)
  | [], s, h => by
      simp only [appendAll, List.foldl_nil, List.append_nil]
      rw [Nat.sub_eq_zero_of_le h, List.drop_zero]
  | m :: ms, s, h => by
      have hstep : appendAll s chat_id thread_id (m :: ms)
          = appendAll (s.add_message chat_id thread_id m) chat_id thread_id ms := by
        simp [appendAll]
      rw [hstep,
        appendAll_buffer chat_id thread_id ms (s.add_message chat_id thread_id m)
          (add_message_buffer_le s chat_id thread_id m h),
        add_message_buffer]
      split
      · rename_i hfull
        cases hb : s.buffer chat_id thread_id with
        | nil => rw [hb] at hfull; simp [MAX_MESSAGES] at hfull
        | cons a b =>
            rw [hb] at hfull
            simp only [List.tail_cons]
            have hcond : MAX_MESSAGES ≤ (b ++ m :: ms).length := by
              simp only [List.length_cons] at hfull
              simp only [List.length_append, List.length_cons]
              unfold MAX_MESSAGES at hfull ⊢
              omega
            have h2 : (b ++ [m]) ++ ms = b ++ m :: ms := by simp
            have h1 : (a :: b) ++ m :: ms = a :: (b ++ m :: ms) := by simp
            rw [h2, h1, drop_window_cons a _ hcond]
      · rename_i hroom
        rw [List.append_assoc]
        rfl

/-- C1 — Bounded-FIFO invariant: for every sequence of `append` calls
on one key (capacity `MAX_MESSAGES = 1000`), the buffer length never
exceeds the capacity, it equals `min (number appended) 1000`
(discard-one-admit-one), and reading the whole buffer back with
`get_last_n_messages` yields exactly the last 1000 (or fewer) appended
messages in arrival order — anything older is not retrievable.  Since
`ms` ranges over all sequences, this holds after each call. -/
theorem C1_bounded_fifo (chat_id : Int) (thread_id : Option Int)
    (ms : List SavedMessage) :
    (appendAll MessageStore.new chat_id thread_id ms).count_for chat_id thread_id
        ≤ MAX_MESSAGES ∧
    (appendAll MessageStore.new chat_id thread_id ms).count_for chat_id thread_id
        = min ms.length MAX_MESSAGES ∧
    (appendAll MessageStore.new chat_id thread_id ms).get_last_n_messages chat_id
        thread_id
        ((appendAll MessageStore.new chat_id thread_id ms).count_for chat_id thread_id)
      = ms.drop (ms.length - MAX_MESSAGES) := by
  have hb0 : MessageStore.new.buffer chat_id thread_id = [] := rfl
  have hlen0 : (MessageStore.new.buffer chat_id thread_id).length ≤ MAX_MESSAGES := by
    rw [hb0]
    exact Nat.zero_le _
  have hbuf := appendAll_buffer chat_id thread_id ms MessageStore.new hlen0
  rw [hb0, List.nil_append] at hbuf
  have hcnt : (appendAll MessageStore.new chat_id thread_id ms).count_for chat_id
      thread_id = min ms.length MAX_MESSAGES := by
    rw [count_for_eq_buffer_length, hbuf, List.length_drop]
    omega
  refine ⟨?_, hcnt, ?_⟩
  · rw [hcnt]
    exact Nat.min_le_right _ _
  · rw [get_last_n_eq_drop, hbuf, hcnt]
    have hlen : (ms.drop (ms.length - MAX_MESSAGES)).length
        = min ms.length MAX_MESSAGES := by
      rw [List.length_drop]
      omega
    rw [hlen, Nat.sub_self, List.drop_zero]

/-- C2 — Tail-query correctness: `get_last_n_messages` returns the whole
buffer when `n` is at least the current count, the empty list for
`n = 0`, exactly the newest `n` entries in insertion order for
`0 < n <` count, and the empty list for a key that has never been
written (absent from the map). -/
theorem C2_tail_query (s : MessageStore) (chat_id : Int)
    (thread_id : Option Int) (n : Nat) :
    (s.count_for chat_id thread_id ≤ n →
        s.get_last_n_messages chat_id thread_id n = s.buffer chat_id thread_id) ∧
    (n = 0 → s.get_last_n_messages chat_id thread_id n = []) ∧
    (n < s.count_for chat_id thread_id →
        s.get_last_n_messages chat_id thread_id n
            = (s.buffer chat_id thread_id).drop
                ((s.buffer chat_id thread_id).length - n) ∧
          (s.get_last_n_messages chat_id thread_id n).length = n) ∧
    (s.chats ⟨chat_id, thread_id⟩ = none →
        s.get_last_n_messages chat_id thread_id n = []) := by
  rw [count_for_eq_buffer_length]
  refine ⟨?_, ?_, ?_, ?_⟩
  · intro hle
    rw [get_last_n_eq_drop, Nat.sub_eq_zero_of_le hle, List.drop_zero]
  · intro h0
    subst h0
    rw [get_last_n_eq_drop, Nat.sub_zero, List.drop_length]
  · intro hlt
    refine ⟨get_last_n_eq_drop s chat_id thread_id n, ?_⟩
    rw [get_last_n_eq_drop, List.length_drop]
    omega
  · intro hnone
    unfold MessageStore.get_last_n_messages
    rw [hnone]

/-- Witness for C2 at concrete inputs: a three-message store queried
with `n = 2` (newest two, in order), `n = 0`, `n = 5` (whole buffer),
and an unknown key on the empty store. -/
theorem C2_tail_query_witness :
    demoStore.get_last_n_messages 1 none 2
        = [⟨2, some "B", none, "b"⟩, ⟨3, some "C", none, "c"⟩] ∧
    demoStore.get_last_n_messages 1 none 0 = [] ∧
    demoStore.get_last_n_messages 1 none 5 = demoStore.buffer 1 none ∧
    MessageStore.new.get_last_n_messages 2 none 7 = [] := by
  refine ⟨?_, ?_, ?_, ?_⟩
  · rw [((C2_tail_query demoStore 1 none 2).2.2.1 (by decide)).1]
    decide
  · exact (C2_tail_query demoStore 1 none 0).2.1 rfl
  · exact (C2_tail_query demoStore 1 none 5).1 (by decide)
  · exact (C2_tail_query MessageStore.new 2 none 7).2.2.2 rfl

/-! ## Renderer lemmas -/

theorem countNewlines_append (a b : String) :
    countNewlines (a ++ b) = countNewlines a + countNewlines b := by
  simp [countNewlines, String.data_append, List.count_append]

theorem newline_not_mem_escape (s : String) :
    '\n' ∉ (escapeNewlines s).data := by
  intro h
  rcases List.mem_flatMap.mp h with ⟨c, _, hmem⟩
  unfold escapeChar at hmem
  split at hmem
  · simp only [List.mem_cons, List.mem_singleton] at hmem
    rcases hmem with h1 | h1 | h1 <;> exact absurd h1 (by decide)
  · rename_i hc
    rw [List.mem_singleton] at hmem
    exact hc hmem.symm

theorem countNewlines_escape (s : String) :
    countNewlines (escapeNewlines s) = 0 :=
  List.count_eq_zero.mpr (newline_not_mem_escape s)

/-- Under the assumption that no author display name in the lookup list
contains a newline, each rendered line holds exactly one newline: its
terminator. -/
theorem countNewlines_renderMessage (msgs : List SavedMessage) (m : SavedMessage)
    (hmsgs : ∀ y ∈ msgs, ∀ nm, y.from_user = some nm → '\n' ∉ nm.data)
    (hm : ∀ nm, m.from_user = some nm → '\n' ∉ nm.data) :
    countNewlines (renderMessage msgs m) = 1 := by
  have husr : countNewlines (m.from_user.getD "Unknown") = 0 := by
    cases hfu : m.from_user with
    | none => decide
    | some nm => exact List.count_eq_zero.mpr (hm nm hfu)
  cases hrm : m.reply_to_message_id with
  | none =>
      have heq : renderMessage msgs m
          = m.from_user.getD "Unknown" ++ ": " ++ escapeNewlines m.text ++ "\n" := by
        simp [renderMessage, hrm]
      rw [heq, countNewlines_append, countNewlines_append, countNewlines_append,
        husr, countNewlines_escape]
      decide
  | some rid =>
      have hrep : countNewlines
          (((msgs.find? (fun y => y.message_id == rid)).bind
            (fun y => y.from_user)).getD "someone") = 0 := by
        cases hfind : msgs.find? (fun y => y.message_id == rid) with
        | none => decide
        | some x =>
            cases hx : x.from_user with
            | none => simp [hx]; decide
            | some nm =>
                have hred : ((some x).bind (fun y => y.from_user)).getD "someone"
                    = nm := by simp [hx]
                rw [hred]
                exact List.count_eq_zero.mpr
                  (hmsgs x (List.mem_of_find?_eq_some hfind) nm hx)
      have heq : renderMessage msgs m
          = m.from_user.getD "Unknown" ++ " (replying to "
              ++ (((msgs.find? (fun y => y.message_id == rid)).bind
                    (fun y => y.from_user)).getD "someone")
              ++ "): " ++ escapeNewlines m.text ++ "\n" := by
        simp [renderMessage, hrm]
      rw [heq, countNewlines_append, countNewlines_append, countNewlines_append,
        countNewlines_append, countNewlines_append, husr, hrep, countNewlines_escape]
      decide

theorem countNewlines_foldl (msgs : List SavedMessage)
    (hmsgs : ∀ y ∈ msgs, ∀ nm, y.from_user = some nm → '\n' ∉ nm.data) :
    ∀ (rest : List SavedMessage), (∀ y ∈ rest, y ∈ msgs) → ∀ (acc : String),
      countNewlines (rest.foldl (fun a m => a ++ renderMessage msgs m) acc)
        = countNewlines acc + rest.length := by
  intro rest
  induction rest with
  | nil => intro _ acc; simp
  | cons m rest ih =>
      intro hsub acc
      simp only [List.foldl_cons]
      rw [ih (fun y hy => hsub y (List.mem_cons_of_mem m hy))
          (acc ++ renderMessage msgs m),
        countNewlines_append,
        countNewlines_renderMessage msgs m hmsgs
          (fun nm h => hmsgs m (hsub m (List.mem_cons_self m rest)) nm h)]
      simp only [List.length_cons]
      omega

theorem conversation_text_eq_join (msgs : List SavedMessage) :
    conversation_text msgs = String.join (msgs.map (renderMessage msgs)) := by
  unfold conversation_text String.join
  rw [List.foldl_map]

/-- C3 — counterexample.  In the snapshot `[A, B]` with
`A = ⟨id 1, no name, no reply, "hi"⟩` and `B` replying to id 1, the
reply target IS found in the snapshot (first conjunct) and its
attribution label — as used for A's own line — is `"Unknown"` (visible
in the rendered text), yet B's "replying to" target is rendered as
`"someone"`, not `"Unknown"`: the code falls back to `"someone"` not
only when no matching message exists, but also when the matched
message's name is absent
(`.and_then(|m| m.from_user.as_ref()).unwrap_or("someone")`,
main.rs:404-409). -/
theorem C3_reply_resolution_counterexample :
    (([⟨1, none, none, "hi"⟩, ⟨2, some "Bob", some 1, "yo"⟩] :
        List SavedMessage).find? (fun y => y.message_id == (1 : Int)))
        = some ⟨1, none, none, "hi"⟩ ∧
    (⟨1, none, none, "hi"⟩ : SavedMessage).from_user = none ∧
    conversation_text [⟨1, none, none, "hi"⟩, ⟨2, some "Bob", some 1, "yo"⟩]
        = "Unknown: hi\nBob (replying to someone): yo\n" := by
  refine ⟨by decide, rfl, by decide⟩

/-- C3 (amended) — Reply resolution: for every snapshot and every
message whose `reply_to_message_id` is set, the renderer searches the
same snapshot for a matching `message_id`; if a match with an author
display name is found, that name is the "replying to" target; if the
match has no name, or if no match exists, the fixed placeholder
`"someone"` is substituted.  The renderer is a total function, so no
error is produced. -/
theorem C3_reply_resolution (msgs : List SavedMessage) (m : SavedMessage)
    (rid : Int) (hm : m.reply_to_message_id = some rid) :
    (∀ x, msgs.find? (fun y => y.message_id == rid) = some x →
        renderMessage msgs m
          = m.from_user.getD "Unknown" ++ " (replying to "
              ++ x.from_user.getD "someone" ++ "): "
              ++ escapeNewlines m.text ++ "\n") ∧
    (msgs.find? (fun y => y.message_id == rid) = none →
        renderMessage msgs m
          = m.from_user.getD "Unknown" ++ " (replying to " ++ "someone" ++ "): "
              ++ escapeNewlines m.text ++ "\n") := by
  constructor
  · intro x hx
    simp [renderMessage, hm, hx]
  · intro hx
    simp [renderMessage, hm, hx]

/-- Witness for C3 (amended) at concrete snapshots: a found reply
target with a name, and a reply to an id absent from the snapshot. -/
theorem C3_reply_resolution_witness :
    renderMessage [⟨1, some "Ann", none, "a"⟩, ⟨2, some "Bob", some 1, "b"⟩]
        ⟨2, some "Bob", some 1, "b"⟩
      = (some "Bob").getD "Unknown" ++ " (replying to "
          ++ (some "Ann").getD "someone" ++ "): " ++ escapeNewlines "b" ++ "\n" ∧
    renderMessage [⟨2, some "Bob", some 99, "b"⟩] ⟨2, some "Bob", some 99, "b"⟩
      = (some "Bob").getD "Unknown" ++ " (replying to " ++ "someone" ++ "): "
          ++ escapeNewlines "b" ++ "\n" := by
  constructor
  · exact (C3_reply_resolution
      [⟨1, some "Ann", none, "a"⟩, ⟨2, some "Bob", some 1, "b"⟩]
      ⟨2, some "Bob", some 1, "b"⟩ 1 rfl).1 ⟨1, some "Ann", none, "a"⟩ (by decide)
  · exact (C3_reply_resolution [⟨2, some "Bob", some 99, "b"⟩]
      ⟨2, some "Bob", some 99, "b"⟩ 99 rfl).2 (by decide)

/-- C4 — counterexample.  The code escapes newlines only in the message
TEXT (`message.text.replace('\n', "\\n")`, main.rs:400), not in the
author display name: a snapshot holding one message whose author name
contains a literal newline renders to a transcript with two lines, so
the total line count does not equal the message count. -/
theorem C4_newline_escaping_counterexample :
    countNewlines (conversation_text [⟨1, some "a\nb", none, "hi"⟩]) = 2 ∧
    ([⟨1, some "a\nb", none, "hi"⟩] : List SavedMessage).length = 1 ∧
    conversation_text [⟨1, some "a\nb", none, "hi"⟩] = "a\nb: hi\n" := by
  refine ⟨by decide, rfl, by decide⟩

/-- C4 (amended) — Newline escaping and one-line-per-message, for every
snapshot in which no author display name contains a literal newline
(the code escapes only the message text): every newline inside a
message's text is replaced by the two-character escape `\` `n` (so the
escaped text holds no newline at all), the transcript is the
concatenation of one rendered line per message, each rendered line
holds exactly one newline (its terminator), and the transcript's total
line count equals the snapshot's message count. -/
theorem C4_newline_escaping (s : List SavedMessage)
    (h : ∀ m ∈ s, ∀ nm, m.from_user = some nm → '\n' ∉ nm.data) :
    (∀ t : String,
        (escapeNewlines t).data = t.data.flatMap escapeChar ∧
        '\n' ∉ (escapeNewlines t).data) ∧
    conversation_text s = String.join (s.map (renderMessage s)) ∧
    (∀ m ∈ s, countNewlines (renderMessage s m) = 1) ∧
    countNewlines (conversation_text s) = s.length := by
  refine ⟨fun t => ⟨rfl, newline_not_mem_escape t⟩, conversation_text_eq_join s,
    ?_, ?_⟩
  · intro m hmem
    exact countNewlines_renderMessage s m h (fun nm hnm => h m hmem nm hnm)
  · have hc := countNewlines_foldl s h s (fun y hy => hy) ""
    unfold conversation_text
    rw [hc]
    have h0 : countNewlines "" = 0 := rfl
    rw [h0, Nat.zero_add]

/-- Witness for C4 (amended) at a concrete snapshot whose single
message's text contains a newline but whose author name does not. -/
theorem C4_newline_escaping_witness :
    countNewlines (conversation_text [⟨1, some "Ann", none, "x\ny"⟩]) = 1 :=
  (C4_newline_escaping [⟨1, some "Ann", none, "x\ny"⟩] (by
    intro m hm nm hnm
    rw [List.mem_singleton] at hm
    subst hm
    simp only at hnm
    injection hnm with hnm
    subst hnm
    decide)).2.2.2

/-! ## Adapter theorems -/

/-- C5 — the claim is violated by the code (code bug): on a valid
`/summarize 100` over a chat with three stored messages, the Summarize
arm's event trace performs the external summarization call strictly
between acquiring and releasing the store lock: the `MutexGuard`
obtained at main.rs:297 is a named binding that Rust only drops at the
end of the match arm (main.rs:329), so the Groq HTTP request at
main.rs:311 — and the progress-message send and result edit around
it — all run while the store's exclusive lock is held, blocking every
concurrent `add_message`. -/
theorem C5_lock_held_across_external_call :
    summarizeEvents "100" demoStore 1 none
      = [.lockAcquire, .storeRead,
         .sendMessage "Summarizing 3 messages...",
         .externalSummarizeCall, .editMessage, .lockRelease] ∧
    externalCallWhileLocked false (summarizeEvents "100" demoStore 1 none)
      = true := by
  refine ⟨by decide, by decide⟩

/-- C6 — Summarize count validation: an empty argument defaults to 100;
every accepted count `n` satisfies `1 ≤ n ≤ MAX_MESSAGES`; on a
rejected argument the Summarize arm only sends the guidance message —
its trace holds no lock acquisition and no store read; and `"abc"`,
`"0"` and `"1001"` are all rejected. -/
theorem C6_count_validation (s : String) (st : MessageStore) (chat_id : Int)
    (thread_id : Option Int) :
    parseCount "" = some 100 ∧
    (∀ n, parseCount s = some n → 1 ≤ n ∧ n ≤ MAX_MESSAGES) ∧
    (parseCount s = none →
        summarizeEvents s st chat_id thread_id
          = [.sendMessage validationMessage]) ∧
    parseCount "abc" = none ∧ parseCount "0" = none ∧ parseCount "1001" = none := by
  refine ⟨by decide, ?_, ?_, by decide, by decide, by decide⟩
  · intro n h
    simp only [parseCount] at h
    split at h
    · injection h with h
      subst h
      decide
    · split at h
      · split at h
        · rename_i hcond
          injection h with h
          subst h
          exact ⟨hcond.1, hcond.2⟩
        · cases h
      · cases h
  · intro h
    simp [summarizeEvents, h]

/-- Witness for C6: the rejected argument `"abc"` produces only the
guidance message, and the accepted argument `"42"` yields a count in
range. -/
theorem C6_count_validation_witness :
    summarizeEvents "abc" MessageStore.new 1 none
        = [.sendMessage validationMessage] ∧
    (1 ≤ 42 ∧ 42 ≤ MAX_MESSAGES) :=
  ⟨(C6_count_validation "abc" MessageStore.new 1 none).2.2.1 (by decide),
   (C6_count_validation "42" MessageStore.new 1 none).2.1 42 (by decide)⟩

/-- C7 — Empty-window handling: whenever the count argument validates
and the store holds no messages for the key, the Summarize arm sends
the neutral "No messages to summarize." text and returns; the external
summarizer never appears in the trace. -/
theorem C7_empty_window (s : String) (n : Nat) (st : MessageStore)
    (chat_id : Int) (thread_id : Option Int)
    (h1 : parseCount s = some n)
    (h2 : st.get_last_n_messages chat_id thread_id n = []) :
    summarizeEvents s st chat_id thread_id
        = [.lockAcquire, .storeRead,
           .sendMessage "No messages to summarize.", .lockRelease] ∧
    AdapterEvent.externalSummarizeCall ∉ summarizeEvents s st chat_id thread_id := by
  have htr : summarizeEvents s st chat_id thread_id
      = [.lockAcquire, .storeRead,
         .sendMessage "No messages to summarize.", .lockRelease] := by
    simp [summarizeEvents, h1, h2]
  exact ⟨htr, by rw [htr]; decide⟩

/-- Witness for C7: `/summarize` with no argument on the empty store. -/
theorem C7_empty_window_witness :
    summarizeEvents "" MessageStore.new 1 none
      = [.lockAcquire, .storeRead,
         .sendMessage "No messages to summarize.", .lockRelease] :=
  (C7_empty_window "" 100 MessageStore.new 1 none (by decide) (by decide)).1

/-- C8 — Unattributed-event policy: an inbound text message without a
resolvable sender (`msg.from` is `None`, main.rs:202-205) leaves the
store untouched — every buffer, every tail query and every count is
unchanged, and the handler performs no send (its only effect in the
source is a debug log line). -/
theorem C8_unattributed_dropped (msg : InboundMessage) (store : MessageStore)
    (h : msg.sender = none) :
    handle_message msg store = store ∧
    ∀ (c : Int) (t : Option Int) (k : Nat),
      (handle_message msg store).get_last_n_messages c t k
          = store.get_last_n_messages c t k ∧
      (handle_message msg store).count_for c t = store.count_for c t := by
  have heq : handle_message msg store = store := by
    cases htext : msg.text with
    | none => simp [handle_message, htext]
    | some text => simp [handle_message, htext, h]
  exact ⟨heq, fun c t k => by rw [heq]; exact ⟨rfl, rfl⟩⟩

/-- Witness for C8: a concrete sender-less text message on the demo
store. -/
theorem C8_unattributed_dropped_witness :
    handle_message ⟨1, none, 5, none, none, some "hello"⟩ demoStore = demoStore :=
  (C8_unattributed_dropped ⟨1, none, 5, none, none, some "hello"⟩ demoStore rfl).1

/-- C10 — Only text-bearing events mutate the store: an inbound message
whose `msg.text()` is `None` (media, stickers, photos with captions,
…) is never stored (main.rs:187 guards the whole handler body), so
every buffer, count and snapshot is unchanged and the message can
appear in no transcript. -/
theorem C10_no_text_no_mutation (msg : InboundMessage) (store : MessageStore)
    (h : msg.text = none) :
    handle_message msg store = store ∧
    ∀ (c : Int) (t : Option Int) (k : Nat),
      (handle_message msg store).get_last_n_messages c t k
          = store.get_last_n_messages c t k ∧
      (handle_message msg store).count_for c t = store.count_for c t := by
  have heq : handle_message msg store = store := by
    simp [handle_message, h]
  exact ⟨heq, fun c t k => by rw [heq]; exact ⟨rfl, rfl⟩⟩

/-- Witness for C10: a concrete textless message (e.g. a sticker) from
a known sender on the demo store. -/
theorem C10_no_text_no_mutation_witness :
    handle_message ⟨1, none, 6, some ⟨"Ann", none⟩, none, none⟩ demoStore
      = demoStore :=
  (C10_no_text_no_mutation ⟨1, none, 6, some ⟨"Ann", none⟩, none, none⟩
    demoStore rfl).1

/-! ## Trim lemmas for C9 -/

theorem trimChars_eq_rdropWhile (p : Char → Bool) (l : List Char) :
    trimChars p l = List.rdropWhile p (l.dropWhile p) := rfl

/-- `rdropWhile` removes only trailing elements, so a nonempty result
starts with the head of the input. -/
theorem head?_rdropWhile (p : Char → Bool) (y : List Char) :
    ∀ a, (List.rdropWhile p y).head? = some a → y.head? = some a := by
  induction y using List.reverseRecOn with
  | nil =>
      intro a h
      rw [List.rdropWhile_nil] at h
      cases h
  | append_singleton l b ih =>
      intro a h
      rw [List.rdropWhile_concat] at h
      split at h
      · have hl := ih a h
        rw [List.head?_append, hl]
        rfl
      · exact h

theorem dropWhile_trimChars (p : Char → Bool) (l : List Char) :
    (trimChars p l).dropWhile p = trimChars p l := by
  rw [trimChars_eq_rdropWhile]
  cases hz : List.rdropWhile p (l.dropWhile p) with
  | nil => rfl
  | cons a rest =>
      have ha : (List.rdropWhile p (l.dropWhile p)).head? = some a := by
        rw [hz]
        rfl
      have hda : (l.dropWhile p).head? = some a := head?_rdropWhile p _ a ha
      have hfail : p a = false := by
        have hmatch := List.head?_dropWhile_not p l
        rw [hda] at hmatch
        exact hmatch
      simp [List.dropWhile_cons, hfail]

theorem trimChars_idem (p : Char → Bool) (l : List Char) :
    trimChars p (trimChars p l) = trimChars p l := by
  rw [trimChars_eq_rdropWhile (l := trimChars p l), dropWhile_trimChars,
    trimChars_eq_rdropWhile, List.rdropWhile_idempotent]

theorem rustTrim_idem (s : String) : rustTrim (rustTrim s) = rustTrim s :=
  congrArg String.mk (trimChars_idem rustIsWhitespace s.data)

/-- C9 — the `/summarize` argument is trimmed before validation: the
count accepted for any raw argument is the count accepted for its
trimmed form, an all-whitespace argument behaves like the omitted
argument (default 100), and `" 50 "` is accepted as 50. -/
theorem C9_trimmed_argument (s : String) :
    parseCount s = parseCount (rustTrim s) ∧
    (s.data.all rustIsWhitespace = true → parseCount s = some 100) ∧
    parseCount " 50 " = some 50 := by
  refine ⟨?_, ?_, by decide⟩
  · unfold parseCount
    rw [rustTrim_idem]
  · intro hws
    have htrim : rustTrim s = "" := by
      unfold rustTrim trimChars
      have h1 : s.data.dropWhile rustIsWhitespace = [] :=
        List.dropWhile_eq_nil_iff.mpr (fun x hx => List.all_eq_true.mp hws x hx)
      rw [h1]
      rfl
    simp [parseCount, htrim]

/-- Witness for C9: the all-whitespace argument `"  "` defaults to 100. -/
theorem C9_trimmed_argument_witness :
    parseCount "  " = some 100 :=
  (C9_trimmed_argument "  ").2.1 (by decide)
